import Mathlib

/-!
Verification of the resume-ai-assistant frontend against its specification.

The definitions below are a shallow embedding of the two source files
`src/frontend/lib/resume.ts` (resume text parser) and
`src/frontend/app/page.tsx` (chat UI state manager).  Strings are modelled
as Lean `String` (lists of characters); JavaScript's whitespace class and
`String.prototype.trim` are modelled by `isJsSpace` / `jsTrimS`; the regex
used by `splitTitlePeriod` is modelled by an executable backtracking
matcher (`scanDelim`) that follows the engine's semantics for
`^(.*?)(?:\s\x7b2,\x7d|\t+)(.+)$`.
-/

/-- JavaScript whitespace class `\s` (also the character class removed by
`String.prototype.trim`): space, tab, line terminators, form/vertical feed,
no-break space, and the Unicode space separators. -/
def isJsSpace (c : Char) : Bool :=
  c = ' ' || c = '\t' || c = '\n' || c = '\r' ||
  c.toNat = 0x0b || c.toNat = 0x0c || c.toNat = 0xa0 || c.toNat = 0x1680 ||
  (0x2000 ≤ c.toNat && c.toNat ≤ 0x200a) || c.toNat = 0x2028 ||
  c.toNat = 0x2029 || c.toNat = 0x202f || c.toNat = 0x205f ||
  c.toNat = 0x3000 || c.toNat = 0xfeff

/-- JavaScript line terminators, which `.` in a regex does not match. -/
def isLineTerm (c : Char) : Bool :=
  c = '\n' || c = '\r' || c.toNat = 0x2028 || c.toNat = 0x2029

/-- JS `String.prototype.trim` on a character list: drop leading and
trailing whitespace. -/
def jsTrimCL (l : List Char) : List Char :=
  ((l.dropWhile isJsSpace).reverse.dropWhile isJsSpace).reverse

/-- JS `value.trim()`. -/
def jsTrimS (s : String) : String :=
  String.mk (jsTrimCL s.data)

/-- JS `s.startsWith p`. -/
def jsStartsWith (s p : String) : Bool :=
  p.data.isPrefixOf s.data

/-- The character substitution of `replace(/ /g, " ")`. -/
def nbspToSpace (c : Char) : Char :=
  if c.toNat = 0xa0 then ' ' else c

/-- Helper for `replace(/\s+/g, sep)`: each maximal whitespace run becomes a
single `sep` character.  The boolean records whether the previous character
was part of a whitespace run (so the run emits only one separator). -/
def collapseWsAux (sep : Char) : Bool → List Char → List Char
  | _, [] => []
  | prevWs, c :: t =>
    if isJsSpace c then
      if prevWs then collapseWsAux sep true t
      else sep :: collapseWsAux sep true t
    else c :: collapseWsAux sep false t

/-- JS `value.replace(/\s+/g, String sep)`. -/
def collapseWs (sep : Char) (l : List Char) : List Char :=
  collapseWsAux sep false l

/-- `normalizeSpaces` from resume.ts:
`value.replace(/ /g, " ").replace(/\s+/g, " ").trim()`. -/
def normalizeSpaces (s : String) : String :=
  String.mk (jsTrimCL (collapseWs ' ' (s.data.map nbspToSpace)))

/-- ASCII part of JS `toLowerCase` (all labels in the source data are ASCII). -/
def asciiLowerChar (c : Char) : Char :=
  if 65 ≤ c.toNat ∧ c.toNat ≤ 90 then Char.ofNat (c.toNat + 32) else c

/-- JS `value.toLowerCase()` restricted to ASCII letters. -/
def asciiLower (s : String) : String :=
  String.mk (s.data.map asciiLowerChar)

/-- Length of the maximal run of characters satisfying `p` at the front. -/
def countWhile (p : Char → Bool) : List Char → Nat
  | [] => 0
  | c :: t => if p c then countWhile p t + 1 else 0

/-- `(.+)$` applied to the remainder `r`: it must be nonempty and contain no
line terminator. -/
def restOk (r : List Char) : Bool :=
  !r.isEmpty && r.all (fun c => !isLineTerm c)

/-- Greedy-with-backtracking choice of the delimiter length: try `k`, then
`k - 1`, ..., down to `lo` (the regex quantifier's minimum), returning the
first length whose remainder satisfies `(.+)$`. -/
def bestSplit (t : List Char) (lo : Nat) : Nat → Option Nat
  | 0 => none
  | k + 1 =>
    if k + 1 < lo then none
    else if restOk (t.drop (k + 1)) then some (k + 1)
    else bestSplit t lo k

/-- Try to match `(?:\s\x7b2,\x7d|\t+)(.+)$` at the start of `t`, returning the
text captured by `(.+)` on success.  The alternation first tries the greedy
whitespace branch (with backtracking), then the tab branch. -/
def tryDelim (t : List Char) : Option (List Char) :=
  match bestSplit t 2 (countWhile isJsSpace t) with
  | some k => some (t.drop k)
  | none =>
    match bestSplit t 1 (countWhile (fun c => c = '\t') t) with
    | some j => some (t.drop j)
    | none => none

/-- The lazy scan of `^(.*?)` : at each position first try the delimiter and
tail, otherwise extend the prefix by one character (which `.` requires to be
no line terminator).  Returns the two captured groups. -/
def scanDelim : List Char → List Char → Option (List Char × List Char)
  | acc, [] =>
    match tryDelim [] with
    | some rest => some (acc.reverse, rest)
    | none => none
  | acc, c :: t =>
    match tryDelim (c :: t) with
    | some rest => some (acc.reverse, rest)
    | none => if isLineTerm c then none else scanDelim (c :: acc) t

/-- `splitTitlePeriod` from resume.ts: replace no-break spaces by plain
spaces, match `^(.*?)(?:\s\x7b2,\x7d|\t+)(.+)$`, and return the trimmed captures;
when the regex does not match, the trimmed original line is the title and the
period is empty. -/
def splitTitlePeriod (line : String) : String × String :=
  let clean := line.data.map nbspToSpace
  match scanDelim [] clean with
  | some (p, r) => (String.mk (jsTrimCL p), String.mk (jsTrimCL r))
  | none => (jsTrimS line, "")

/-- One entry of `ResumeData.experience`. -/
structure ExpEntry where
  role : String
  org : String
  period : String
  bullets : List String
deriving DecidableEq, Repr

/-- The mutable scanner state of `parseExperience` (`currentOrg`,
`currentPeriod`, `currentRole`, `bullets`, and the accumulated `items`). -/
structure ExpState where
  currentOrg : String
  currentPeriod : String
  currentRole : String
  bullets : List String
  items : List ExpEntry
deriving DecidableEq, Repr

/-- `pushCurrent` from `parseExperience`: emit the in-progress entry unless
the role or the org is missing; bullets are whitespace-normalized. -/
def pushCurrentExp (st : ExpState) : List ExpEntry :=
  if st.currentRole = "" ∨ st.currentOrg = "" then st.items
  else st.items ++
    [⟨st.currentRole, st.currentOrg, st.currentPeriod,
      st.bullets.map normalizeSpaces⟩]

/-- The body of the `lines.forEach` loop in `parseExperience`. -/
def expStep (st : ExpState) (line : String) : ExpState :=
  let trimmed := jsTrimS line
  if trimmed = "" then st
  else
    let tp := splitTitlePeriod trimmed
    if tp.2 ≠ "" then
      { currentOrg := tp.1, currentPeriod := tp.2, currentRole := "",
        bullets := [],
        items := if st.currentRole ≠ "" then pushCurrentExp st else st.items }
    else if st.currentRole = "" then { st with currentRole := trimmed }
    else { st with bullets := st.bullets ++ [trimmed] }

/-- `parseExperience` from resume.ts: fold the scanner over the lines and
flush the last in-progress entry at end of input. -/
def parseExperience (lines : List String) : List ExpEntry :=
  let st := lines.foldl expStep ⟨"", "", "", [], []⟩
  if st.currentRole ≠ "" then pushCurrentExp st else st.items

/-- The record returned by `parseContact`. -/
structure Contact where
  email : String
  phone : String
  linkedIn : String
  linkedInUrl : String
  github : String
deriving DecidableEq, Repr

/-- JS `String.prototype.replace` with a plain-string pattern: replace the
first occurrence of `pat` by `rep`. -/
def replaceFirstCL (pat rep : List Char) : List Char → List Char
  | [] => []
  | c :: t =>
    if pat.isPrefixOf (c :: t) then rep ++ (c :: t).drop pat.length
    else c :: replaceFirstCL pat rep t

/-- JS `String.prototype.split` with a single-character separator. -/
def splitOnCharCL (sep : Char) : List Char → List (List Char)
  | [] => [[]]
  | c :: t =>
    let parts := splitOnCharCL sep t
    if c = sep then [] :: parts
    else
      match parts with
      | [] => [[c]]
      | p :: ps => (c :: p) :: ps

/-- JS `rest.join(":")`. -/
def joinWithColon : List (List Char) → List Char
  | [] => []
  | [p] => p
  | p :: ps => p ++ ':' :: joinWithColon ps

/-- JS object property assignment `map[k] = v` on a record used as a string
map: overwrite an existing key, otherwise add the binding. -/
def setKey (m : List (String × String)) (k v : String) :
    List (String × String) :=
  if m.any (fun p => p.1 == k) then
    m.map (fun p => if p.1 == k then (k, v) else p)
  else m ++ [(k, v)]

/-- JS property read `map[k]` (`none` models `undefined`). -/
def getKey (m : List (String × String)) (k : String) : Option String :=
  (m.find? (fun p => p.1 == k)).map (fun p => p.2)

/-- The label normalization `label.toLowerCase().replace(/\s+/g, "_")`. -/
def contactKey (label : List Char) : String :=
  String.mk (collapseWs '_' (label.map asciiLowerChar))

/-- The body of the `parts.forEach` loop in `parseContact`: split a part on
colons, skip an empty label, and store the trimmed remainder under the
normalized label. -/
def parseContactPart (m : List (String × String)) (part : List Char) :
    List (String × String) :=
  match splitOnCharCL ':' part with
  | [] => m
  | label :: rest =>
    if label = [] then m
    else setKey m (contactKey label) (String.mk (jsTrimCL (joinWithColon rest)))

/-- `buildLinkedInUrl` from resume.ts. -/
def buildLinkedInUrl (value : String) : String :=
  if value = "" then ""
  else
    let trimmed := jsTrimS value
    if jsStartsWith trimmed "http://" || jsStartsWith trimmed "https://" then
      trimmed
    else
      "https://www.linkedin.com/in/" ++
        String.mk (collapseWs '-' (asciiLower trimmed).data)

/-- The handle normalization `trimmed.replace(/^@/, "")`. -/
def stripLeadingAt : List Char → List Char
  | '@' :: t => t
  | l => l

/-- `buildGithubUrl` from resume.ts. -/
def buildGithubUrl (value : String) : String :=
  if value = "" then ""
  else
    let trimmed := jsTrimS value
    if jsStartsWith trimmed "http://" || jsStartsWith trimmed "https://" then
      trimmed
    else "https://github.com/" ++ String.mk (stripLeadingAt trimmed.data)

/-- `parseContact` from resume.ts: normalize the known `|GitHub` glitch,
split the line on pipes, build the label map, and derive the five fields. -/
def parseContact (contactLine : String) : Contact :=
  let normalized :=
    replaceFirstCL "|GitHub".data "| GitHub".data contactLine.data
  let parts := (splitOnCharCL '|' normalized).map jsTrimCL
  let m := parts.foldl parseContactPart []
  let linkedInValue := (getKey m "linkedin").getD ""
  { email := (getKey m "email").getD ""
    phone := (getKey m "contact_number").getD ""
    linkedIn := linkedInValue
    linkedInUrl := buildLinkedInUrl linkedInValue
    github := buildGithubUrl ((getKey m "github").getD "") }

/-- `DEFAULT_ANSWER` from page.tsx (the placeholder answer text). -/
def DEFAULT_ANSWER : String := "The assistant’s answer will appear here."

/-- `HISTORY_LIMIT` from page.tsx. -/
def HISTORY_LIMIT : Nat := 15

/-- The `QAInteraction` record from page.tsx (`askedAt` is the millisecond
timestamp `Date.now()`). -/
structure QAInteraction where
  id : String
  question : String
  answer : String
  askedAt : Nat
deriving DecidableEq, Repr

/-- The component state of `HomePage` that the claims are about: the
question input, latest answer, status message, loading flag, copied flag,
and the oldest-first history list. -/
structure UIState where
  question : String
  answer : String
  status : String
  loading : Bool
  copied : Bool
  history : List QAInteraction
deriving DecidableEq, Repr

/-- JS `arr.slice(-n)`: the last `n` elements (the whole array when it has
at most `n`). -/
def jsSliceLast (n : Nat) (l : List α) : List α :=
  l.drop (l.length - n)

/-- `pushToHistory` from page.tsx: append the new entry and keep the last
`HISTORY_LIMIT` entries. -/
def pushToHistory (h : List QAInteraction) (e : QAInteraction) :
    List QAInteraction :=
  jsSliceLast HISTORY_LIMIT (h ++ [e])

/-- The possible outcomes of the `fetch` call in `handleAsk`:
a 2xx response whose JSON body has an optional `answer` field (`none` models
both an absent field and `null`, which `??` treats alike), a non-2xx
response with its status code and body text, a rejected fetch whose thrown
`Error` carries a message, or a thrown non-`Error` value. -/
inductive FetchResult where
  | success (answer : Option String)
  | httpError (statusCode : Nat) (body : String)
  | networkError (message : String)
  | nonErrorThrow
deriving DecidableEq, Repr

/-- The error message built for a non-2xx response:
`Request failed (status): body-or-Unknown-error`. -/
def httpErrorMessage (code : Nat) (body : String) : String :=
  "Request failed (" ++ toString code ++ "): " ++
    (if body = "" then "Unknown error" else body)

/-- `handleAsk` from page.tsx as a state transition.  The fetch outcome, the
fresh entry id (`crypto.randomUUID()`), and the timestamp (`Date.now()`) are
inputs.  Returns the state after the handler completes together with a flag
recording whether the network call was issued.  The intermediate
`setLoading(true)` / `setStatus("Thinking…")` / `setAnswer("")` writes are
overwritten by the `finally` block before the handler returns, so only the
final values appear. -/
def handleAsk (s : UIState) (fetch : FetchResult) (freshId : String)
    (now : Nat) : UIState × Bool :=
  let trimmed := jsTrimS s.question
  if trimmed = "" then
    ({ s with answer := "Please enter a question first." }, false)
  else
    match fetch with
    | .success ans =>
      let resolved := ans.getD "No answer returned."
      ({ s with copied := false, loading := false, status := "",
                answer := resolved,
                history := pushToHistory s.history
                  ⟨freshId, trimmed, resolved, now⟩ }, true)
    | .httpError code body =>
      let msg := httpErrorMessage code body
      ({ s with copied := false, loading := false, status := "",
                answer := msg,
                history := pushToHistory s.history
                  ⟨freshId, trimmed, msg, now⟩ }, true)
    | .networkError message =>
      ({ s with copied := false, loading := false, status := "",
                answer := message,
                history := pushToHistory s.history
                  ⟨freshId, trimmed, message, now⟩ }, true)
    | .nonErrorThrow =>
      ({ s with copied := false, loading := false, status := "",
                answer := "Unexpected error",
                history := pushToHistory s.history
                  ⟨freshId, trimmed, "Unexpected error", now⟩ }, true)

/-- One user interaction: type a question, then trigger `handleAsk` with
some fetch outcome. -/
structure AskEvent where
  question : String
  fetch : FetchResult
  freshId : String
  now : Nat

/-- Set the question field and run `handleAsk`. -/
def askStep (s : UIState) (ev : AskEvent) : UIState :=
  (handleAsk { s with question := ev.question } ev.fetch ev.freshId ev.now).1

/-- A sequence of ask operations. -/
def runAsks (s : UIState) (evs : List AskEvent) : UIState :=
  evs.foldl askStep s

/-- JSON values, modelling the output of `JSON.parse` and the input of
`JSON.stringify`. -/
inductive JsonVal where
  | null
  | bool (b : Bool)
  | num (n : Nat)
  | str (s : String)
  | arr (items : List JsonVal)
  | obj (fields : List (String × JsonVal))

/-- Property lookup on a parsed JSON object. -/
def jsonField (fields : List (String × JsonVal)) (k : String) :
    Option JsonVal :=
  (fields.find? (fun p => p.1 == k)).map (fun p => p.2)

/-- `JSON.stringify` of one history entry (field order as in the record). -/
def encodeEntry (e : QAInteraction) : JsonVal :=
  .obj [("id", .str e.id), ("question", .str e.question),
        ("answer", .str e.answer), ("askedAt", .num e.askedAt)]

/-- Reading one well-formed stored entry back into a `QAInteraction`. -/
def decodeEntry (j : JsonVal) : Option QAInteraction :=
  match j with
  | .obj fields =>
    match jsonField fields "id", jsonField fields "question",
          jsonField fields "answer", jsonField fields "askedAt" with
    | some (.str i), some (.str q), some (.str a), some (.num t) =>
      some ⟨i, q, a, t⟩
    | _, _, _, _ => none
  | _ => none

/-- The content of `localStorage` under the history key: absent, present
but not parseable as JSON (`JSON.parse` throws), or parseable to a JSON
value. -/
inductive StoredState where
  | absent
  | unparseable
  | parsed (j : JsonVal)

/-- The persist effect from page.tsx:
`localStorage.setItem(KEY, JSON.stringify(history.slice(-HISTORY_LIMIT)))`. -/
def persistHistory (h : List QAInteraction) : StoredState :=
  .parsed (.arr ((jsSliceLast HISTORY_LIMIT h).map encodeEntry))

/-- The load effect from page.tsx: absent or unparseable data falls back to
the empty history; a parsed value is used only when `Array.isArray` holds
(the code stores the array without further per-entry validation, so on
well-formed stored data each element decodes to the original entry). -/
def loadHistory : StoredState → List QAInteraction
  | .absent => []
  | .unparseable => []
  | .parsed (.arr items) => items.filterMap decodeEntry
  | .parsed _ => []

/-- The rendered history order from page.tsx: `[...history].reverse()`,
most recent first. -/
def displayHistory (h : List QAInteraction) : List QAInteraction :=
  h.reverse

/-- The clipboard environment seen by `handleCopyAnswer`:
`navigator.clipboard` missing, or present with `writeText` either
resolving or rejecting. -/
inductive ClipboardEnv where
  | unavailable
  | available (writeSucceeds : Bool)
deriving DecidableEq, Repr

/-- `handleCopyAnswer` from page.tsx.  Returns the new state together with
the list of delays (ms) of the `setTimeout(() => setStatus(""), d)` timers
it schedules: only the successful-write path schedules the 1500 ms
status-clearing timer. -/
def handleCopyAnswer (s : UIState) (clip : ClipboardEnv) :
    UIState × List Nat :=
  let trimmedAnswer := jsTrimS s.answer
  if trimmedAnswer = "" ∨ trimmedAnswer = DEFAULT_ANSWER then (s, [])
  else
    match clip with
    | .unavailable => ({ s with status := "Clipboard unavailable" }, [])
    | .available true =>
      ({ s with copied := true, status := "Copied!" }, [1500])
    | .available false => ({ s with status := "Clipboard unavailable" }, [])

/-- `sub` occurs inside `s` as a contiguous substring. -/
def containsSub (s sub : String) : Prop :=
  ∃ a b : List Char, s.data = a ++ sub.data ++ b

/-- Helper: the characters of one string appended to another. -/
theorem strData_append (a b : String) : (a ++ b).data = a.data ++ b.data := rfl

/-- Helper: `dropWhile` over an append whose right part starts with a
character failing the predicate leaves that right part intact. -/
theorem dropWhile_append_tail (q : Char → Bool) (c : Char) (rest : List Char)
    (hc : q c = false) :
    ∀ a : List Char, ∃ u, (a ++ c :: rest).dropWhile q = u ++ c :: rest := by
  intro a
  induction a with
  | nil => exact ⟨[], by simp [List.dropWhile_cons, hc]⟩
  | cons x xs ih =>
    by_cases hx : q x
    · obtain ⟨u, hu⟩ := ih
      exact ⟨u, by simp [List.dropWhile_cons, hx, hu]⟩
    · exact ⟨x :: xs, by simp [List.dropWhile_cons, hx]⟩

/-- Helper: JS trimming preserves a nonempty whitespace-free prefix. -/
theorem isPrefix_jsTrimCL (p v : List Char) (hne : p ≠ [])
    (hnw : ∀ c ∈ p, isJsSpace c = false) (h : p <+: v) :
    p <+: jsTrimCL v := by
  obtain ⟨t, rfl⟩ := h
  obtain ⟨c0, p', rfl⟩ : ∃ c0 p', p = c0 :: p' := by
    cases p with
    | nil => exact absurd rfl hne
    | cons a b => exact ⟨a, b, rfl⟩
  have h0 : isJsSpace c0 = false := hnw c0 (by simp)
  have hlead : ((c0 :: p') ++ t).dropWhile isJsSpace = (c0 :: p') ++ t := by
    simp [List.dropWhile_cons, h0]
  unfold jsTrimCL
  rw [hlead]
  obtain ⟨d, w, hdw⟩ : ∃ d w, (c0 :: p').reverse = d :: w := by
    cases hr : (c0 :: p').reverse with
    | nil => exact absurd (congrArg List.length hr) (by simp)
    | cons d w => exact ⟨d, w, rfl⟩
  have hd : isJsSpace d = false := by
    apply hnw
    have hmem : d ∈ (c0 :: p').reverse := by rw [hdw]; simp
    rw [List.mem_reverse] at hmem
    exact hmem
  obtain ⟨u, hu⟩ := dropWhile_append_tail isJsSpace d w hd t.reverse
  rw [List.reverse_append, hdw, hu, List.reverse_append]
  have hback : (d :: w).reverse = c0 :: p' := by
    rw [← hdw, List.reverse_reverse]
  rw [hback]
  exact ⟨u.reverse, rfl⟩

/-- Helper: for values that already start with an absolute-URL scheme, both
URL builders return the trimmed value. -/
theorem build_urls_trim (v : String)
    (h : jsStartsWith v "http://" = true ∨ jsStartsWith v "https://" = true) :
    buildLinkedInUrl v = jsTrimS v ∧ buildGithubUrl v = jsTrimS v := by
  have hv : v ≠ "" := by
    intro hv0
    rw [hv0] at h
    rcases h with h | h <;> exact absurd h (by decide)
  have hcond : (jsStartsWith (jsTrimS v) "http://" ||
      jsStartsWith (jsTrimS v) "https://") = true := by
    rcases h with h | h
    · have hp : ("http://".data : List Char) <+: v.data :=
        List.isPrefixOf_iff_prefix.mp h
      have := isPrefix_jsTrimCL "http://".data v.data (by decide) (by decide) hp
      have hb : jsStartsWith (jsTrimS v) "http://" = true :=
        List.isPrefixOf_iff_prefix.mpr this
      simp [hb]
    · have hp : ("https://".data : List Char) <+: v.data :=
        List.isPrefixOf_iff_prefix.mp h
      have := isPrefix_jsTrimCL "https://".data v.data (by decide) (by decide) hp
      have hb : jsStartsWith (jsTrimS v) "https://" = true :=
        List.isPrefixOf_iff_prefix.mpr this
      simp [hb]
  constructor <;> simp [buildLinkedInUrl, buildGithubUrl, hv, hcond]

/-- Helper: a trimmed nonempty line whose split detects a period starts a
fresh experience entry, flushing the previous one only when a role was set. -/
theorem expStep_period (st : ExpState) (line : String)
    (h1 : jsTrimS line ≠ "")
    (h2 : (splitTitlePeriod (jsTrimS line)).2 ≠ "") :
    expStep st line =
      { currentOrg := (splitTitlePeriod (jsTrimS line)).1,
        currentPeriod := (splitTitlePeriod (jsTrimS line)).2,
        currentRole := "", bullets := [],
        items := if st.currentRole ≠ "" then pushCurrentExp st
                 else st.items } := by
  simp [expStep, h1, h2]

/-- Helper: the first non-period nonempty line after a new entry becomes the
role. -/
theorem expStep_role (st : ExpState) (line : String)
    (h1 : jsTrimS line ≠ "")
    (h2 : (splitTitlePeriod (jsTrimS line)).2 = "")
    (h3 : st.currentRole = "") :
    expStep st line = { st with currentRole := jsTrimS line } := by
  simp [expStep, h1, h2, h3]

/-- Helper: later non-period nonempty lines are collected as bullets. -/
theorem expStep_bullet (st : ExpState) (line : String)
    (h1 : jsTrimS line ≠ "")
    (h2 : (splitTitlePeriod (jsTrimS line)).2 = "")
    (h3 : st.currentRole ≠ "") :
    expStep st line = { st with bullets := st.bullets ++ [jsTrimS line] } := by
  simp [expStep, h1, h2, h3]

/-- Helper: when both role and org are present the in-progress entry is
emitted with whitespace-normalized bullets. -/
theorem pushCurrentExp_emits (st : ExpState)
    (hr : st.currentRole ≠ "") (ho : st.currentOrg ≠ "") :
    pushCurrentExp st = st.items ++
      [⟨st.currentRole, st.currentOrg, st.currentPeriod,
        st.bullets.map normalizeSpaces⟩] := by
  simp [pushCurrentExp, hr, ho]

/-- Helper: appending to a full history evicts exactly the oldest entry. -/
theorem pushToHistory_full (h : List QAInteraction) (e : QAInteraction)
    (hl : h.length = HISTORY_LIMIT) :
    pushToHistory h e = h.drop 1 ++ [e] := by
  have h16 : (h ++ [e]).length - HISTORY_LIMIT = 1 := by
    simp only [List.length_append, List.length_cons, List.length_nil, hl]
    omega
  unfold pushToHistory jsSliceLast
  rw [h16]
  cases h with
  | nil => simp [HISTORY_LIMIT] at hl
  | cons a t => simp

/-- Helper: `pushToHistory` never produces more than `HISTORY_LIMIT`
entries. -/
theorem pushToHistory_le (h : List QAInteraction) (e : QAInteraction) :
    (pushToHistory h e).length ≤ HISTORY_LIMIT := by
  unfold pushToHistory jsSliceLast
  rw [List.length_drop]
  omega

/-- Helper: one ask operation preserves the history bound. -/
theorem handleAsk_history_le (s : UIState) (f : FetchResult) (i : String)
    (n : Nat) (hs : s.history.length ≤ HISTORY_LIMIT) :
    ((handleAsk s f i n).1).history.length ≤ HISTORY_LIMIT := by
  by_cases h : jsTrimS s.question = ""
  · simpa [handleAsk, h] using hs
  · cases f <;> simp [handleAsk, h] <;> exact pushToHistory_le _ _

/-- Helper: any sequence of ask operations preserves the history bound. -/
theorem runAsks_history_le (s : UIState) (evs : List AskEvent)
    (hs : s.history.length ≤ HISTORY_LIMIT) :
    (runAsks s evs).history.length ≤ HISTORY_LIMIT := by
  induction evs generalizing s with
  | nil => simpa [runAsks] using hs
  | cons ev rest ih =>
    have hstep : (askStep s ev).history.length ≤ HISTORY_LIMIT :=
      handleAsk_history_le _ ev.fetch ev.freshId ev.now hs
    simpa [runAsks, List.foldl_cons] using ih (askStep s ev) hstep

/-- Helper: decoding a stored entry recovers the original record. -/
theorem decode_encode (e : QAInteraction) :
    decodeEntry (encodeEntry e) = some e := rfl

/-- Helper: decoding an encoded history recovers the original list. -/
theorem filterMap_decode (l : List QAInteraction) :
    (l.map encodeEntry).filterMap decodeEntry = l := by
  induction l with
  | nil => rfl
  | cons a t ih => simp [List.filterMap_cons, decode_encode, ih]

/-- Helper: `slice(-HISTORY_LIMIT)` is the identity on lists within the
bound. -/
theorem jsSliceLast_of_le (l : List QAInteraction)
    (h : l.length ≤ HISTORY_LIMIT) : jsSliceLast HISTORY_LIMIT l = l := by
  unfold jsSliceLast
  rw [Nat.sub_eq_zero_of_le h, List.drop_zero]

/-- C1 counterexample: a GitHub/LinkedIn value that starts with `http://`
but carries trailing whitespace is returned trimmed, not unchanged, so the
universally quantified pass-through part of the claim is false as stated. -/
theorem c1_counterexample :
    jsStartsWith "http://x " "http://" = true ∧
    buildGithubUrl "http://x " ≠ "http://x " ∧
    buildLinkedInUrl "http://x " ≠ "http://x " := by decide

/-- C1 (amended): on the contact line
`Email: a@b.com | Contact Number: 123 | LinkedIn: jiashu-huang |GitHub: @joshh`,
`parseContact` returns email `a@b.com`, phone `123`, linkedIn
`jiashu-huang`, linkedInUrl `https://www.linkedin.com/in/jiashu-huang` and
github `https://github.com/joshh` (the missing space before `GitHub` is
normalized); and for every LinkedIn/GitHub value that already starts with
`http://` or `https://`, the URL builders return its trimmed value — in
particular any such value without surrounding whitespace is returned
unchanged. -/
theorem c1_parseContact_and_url_builders :
    parseContact
        "Email: a@b.com | Contact Number: 123 | LinkedIn: jiashu-huang |GitHub: @joshh" =
      ⟨"a@b.com", "123", "jiashu-huang",
       "https://www.linkedin.com/in/jiashu-huang",
       "https://github.com/joshh"⟩ ∧
    (∀ v : String,
      jsStartsWith v "http://" = true ∨ jsStartsWith v "https://" = true →
      buildLinkedInUrl v = jsTrimS v ∧ buildGithubUrl v = jsTrimS v) ∧
    (∀ v : String,
      (jsStartsWith v "http://" = true ∨ jsStartsWith v "https://" = true) →
      jsTrimS v = v →
      buildLinkedInUrl v = v ∧ buildGithubUrl v = v) := by
  refine ⟨by decide, build_urls_trim, ?_⟩
  intro v h ht
  have hv := build_urls_trim v h
  rw [ht] at hv
  exact hv

/-- C1 witness: the pass-through conjunct applied to a concrete
already-absolute URL without surrounding whitespace. -/
theorem c1_witness :
    buildLinkedInUrl "https://github.com/x" = "https://github.com/x" ∧
    buildGithubUrl "https://github.com/x" = "https://github.com/x" :=
  c1_parseContact_and_url_builders.2.2 "https://github.com/x"
    (Or.inr (by decide)) (by decide)

/-- C2: the four example lines produce exactly one experience entry with
org `Acme Corp`, period `2020-2022`, role `Engineer` and bullets
`["Built X", "Shipped Y"]`; and in general a trimmed nonempty line with a
detected period starts a new entry (flushing the previous one only when it
had a role), the first following nonempty non-period line becomes the role,
every later nonempty non-period line is collected as a bullet, and emitted
entries carry their bullets whitespace-normalized. -/
theorem c2_parseExperience :
    parseExperience
        ["Acme Corp   2020-2022", "Engineer", "Built X", "Shipped Y"] =
      [⟨"Engineer", "Acme Corp", "2020-2022", ["Built X", "Shipped Y"]⟩] ∧
    (∀ (st : ExpState) (line : String),
      jsTrimS line ≠ "" → (splitTitlePeriod (jsTrimS line)).2 ≠ "" →
      expStep st line =
        { currentOrg := (splitTitlePeriod (jsTrimS line)).1,
          currentPeriod := (splitTitlePeriod (jsTrimS line)).2,
          currentRole := "", bullets := [],
          items := if st.currentRole ≠ "" then pushCurrentExp st
                   else st.items }) ∧
    (∀ (st : ExpState) (line : String),
      jsTrimS line ≠ "" → (splitTitlePeriod (jsTrimS line)).2 = "" →
      st.currentRole = "" →
      expStep st line = { st with currentRole := jsTrimS line }) ∧
    (∀ (st : ExpState) (line : String),
      jsTrimS line ≠ "" → (splitTitlePeriod (jsTrimS line)).2 = "" →
      st.currentRole ≠ "" →
      expStep st line = { st with bullets := st.bullets ++ [jsTrimS line] }) ∧
    (∀ st : ExpState, st.currentRole ≠ "" → st.currentOrg ≠ "" →
      pushCurrentExp st = st.items ++
        [⟨st.currentRole, st.currentOrg, st.currentPeriod,
          st.bullets.map normalizeSpaces⟩]) :=
  ⟨by decide, expStep_period, expStep_role, expStep_bullet,
   pushCurrentExp_emits⟩

/-- C2 witness: the bullet conjunct applied at a concrete state and line. -/
theorem c2_witness :
    expStep ⟨"Acme", "2020", "Engineer", ["b"], []⟩ "Built X" =
      ⟨"Acme", "2020", "Engineer", ["b", "Built X"], []⟩ := by
  have h := c2_parseExperience.2.2.2.1 ⟨"Acme", "2020", "Engineer", ["b"], []⟩
    "Built X" (by decide) (by decide) (by decide)
  rw [h]
  decide

/-- C3 counterexample: in `["A  2020-2021", "B  2021-2022", "Engineer"]`
the first line starts an in-progress entry with org `A` (so the entry does
not lack its org, only its role), yet when the second title/period line
arrives that entry is silently dropped: the final result contains no entry
with org `A`.  This refutes "dropped precisely when it lacks both a role
and an org". -/
theorem c3_counterexample :
    expStep ⟨"", "", "", [], []⟩ "A  2020-2021" =
      ⟨"A", "2020-2021", "", [], []⟩ ∧
    parseExperience ["A  2020-2021", "B  2021-2022", "Engineer"] =
      [⟨"Engineer", "B", "2021-2022", []⟩] ∧
    ("A" : String) ≠ "" ∧
    (∀ e ∈ parseExperience ["A  2020-2021", "B  2021-2022", "Engineer"],
      e.org ≠ "A") := by decide

/-- C3 (amended): an in-progress entry is silently dropped precisely when
it lacks a role or lacks an org (the code tests `!currentRole ||
!currentOrg`, so either missing field suffices); non-period lines never
change the emitted items; items grow only when a new title/period line
arrives with a role set (via `pushCurrent`); and at end of input the last
entry is flushed through the same `pushCurrent` guard. -/
theorem c3_drop_conditions :
    (∀ st : ExpState, pushCurrentExp st = st.items ↔
      (st.currentRole = "" ∨ st.currentOrg = "")) ∧
    (∀ (st : ExpState) (line : String),
      (splitTitlePeriod (jsTrimS line)).2 = "" →
      (expStep st line).items = st.items) ∧
    (∀ (st : ExpState) (line : String),
      (expStep st line).items = st.items ∨
      ((splitTitlePeriod (jsTrimS line)).2 ≠ "" ∧ st.currentRole ≠ "" ∧
        (expStep st line).items = pushCurrentExp st)) ∧
    (∀ lines : List String, parseExperience lines =
      (if (lines.foldl expStep ⟨"", "", "", [], []⟩).currentRole ≠ ""
       then pushCurrentExp (lines.foldl expStep ⟨"", "", "", [], []⟩)
       else (lines.foldl expStep ⟨"", "", "", [], []⟩).items)) := by
  refine ⟨?_, ?_, ?_, fun lines => rfl⟩
  · intro st
    by_cases hc : st.currentRole = "" ∨ st.currentOrg = ""
    · simp [pushCurrentExp, hc]
    · rw [pushCurrentExp, if_neg hc]
      constructor
      · intro h
        have hlen := congrArg List.length h
        simp at hlen
      · intro h
        exact absurd h hc
  · intro st line h2
    by_cases h1 : jsTrimS line = ""
    · simp [expStep, h1]
    · by_cases h3 : st.currentRole = ""
      · rw [expStep_role st line h1 h2 h3]
      · rw [expStep_bullet st line h1 h2 h3]
  · intro st line
    by_cases h1 : jsTrimS line = ""
    · left
      simp [expStep, h1]
    · by_cases h2 : (splitTitlePeriod (jsTrimS line)).2 = ""
      · left
        by_cases h3 : st.currentRole = ""
        · rw [expStep_role st line h1 h2 h3]
        · rw [expStep_bullet st line h1 h2 h3]
      · by_cases h3 : st.currentRole = ""
        · left
          rw [expStep_period st line h1 h2]
          simp [h3]
        · right
          refine ⟨h2, h3, ?_⟩
          rw [expStep_period st line h1 h2]
          simp [h3]

/-- C3 witness: the non-period conjunct applied at a concrete state and
line. -/
theorem c3_witness :
    (expStep ⟨"Org", "2020", "Role", [], []⟩ "hello").items = [] := by
  have h := c3_drop_conditions.2.1 ⟨"Org", "2020", "Role", [], []⟩ "hello"
    (by decide)
  simpa using h

/-- C8: `splitTitlePeriod "Acme Corp   2020 - 2022"` yields title
`Acme Corp` and period `2020 - 2022`; whenever the delimiter regex matches
(first position with a two-or-more-whitespace run or a tab run followed by
a nonempty tail) the two captures are returned trimmed; and for every line
on which the delimiter regex finds no match, the result is the trimmed
whole line with an empty period. -/
theorem c8_splitTitlePeriod :
    splitTitlePeriod "Acme Corp   2020 - 2022" =
      ("Acme Corp", "2020 - 2022") ∧
    (∀ (line : String) (p r : List Char),
      scanDelim [] (line.data.map nbspToSpace) = some (p, r) →
      splitTitlePeriod line =
        (String.mk (jsTrimCL p), String.mk (jsTrimCL r))) ∧
    (∀ line : String,
      scanDelim [] (line.data.map nbspToSpace) = none →
      splitTitlePeriod line = (jsTrimS line, "")) := by
  refine ⟨by decide, ?_, ?_⟩
  · intro line p r h
    simp [splitTitlePeriod, h]
  · intro line h
    simp [splitTitlePeriod, h]

/-- C8 witness: a line without any delimiter keeps the whole (trimmed) line
as the title and an empty period. -/
theorem c8_witness :
    splitTitlePeriod "Hello" = (jsTrimS "Hello", "") :=
  c8_splitTitlePeriod.2.2 "Hello" (by decide)

/-- C4: appending to a full 15-entry history evicts exactly the oldest
entry and keeps the most recent 15 in oldest-first order; a single push
never exceeds the limit; and any sequence of ask operations (successful or
failed, with any questions) starting from a history of at most 15 entries
keeps the history at no more than 15 entries. -/
theorem c4_history_bound :
    (∀ (h : List QAInteraction) (e : QAInteraction),
      h.length = HISTORY_LIMIT → pushToHistory h e = h.drop 1 ++ [e]) ∧
    (∀ (h : List QAInteraction) (e : QAInteraction),
      (pushToHistory h e).length ≤ HISTORY_LIMIT) ∧
    (∀ (s : UIState) (evs : List AskEvent),
      s.history.length ≤ HISTORY_LIMIT →
      (runAsks s evs).history.length ≤ HISTORY_LIMIT) :=
  ⟨pushToHistory_full, pushToHistory_le, runAsks_history_le⟩

/-- C4 witness: pushing onto a concrete full history of 15 entries drops
exactly the oldest entry. -/
theorem c4_witness :
    pushToHistory (List.replicate 15 ⟨"i", "q", "a", 0⟩)
        ⟨"j", "q1", "a1", 1⟩ =
      (List.replicate 15 (⟨"i", "q", "a", 0⟩ : QAInteraction)).drop 1 ++
        [⟨"j", "q1", "a1", 1⟩] :=
  c4_history_bound.1 _ _ (by decide)

/-- C5: for a question whose trimmed text is empty, the ask operation
returns the state with the answer set to exactly
`Please enter a question first.`, history and loading flag unchanged, the
network-call flag false, and a result independent of any fetch outcome
(hence no network call is performed). -/
theorem c5_empty_question (s : UIState) (f : FetchResult) (i : String)
    (n : Nat) (h : jsTrimS s.question = "") :
    handleAsk s f i n =
      ({ s with answer := "Please enter a question first." }, false) ∧
    (handleAsk s f i n).1.history = s.history ∧
    (handleAsk s f i n).1.loading = s.loading ∧
    (∀ f' : FetchResult, handleAsk s f i n = handleAsk s f' i n) := by
  refine ⟨?_, ?_, ?_, ?_⟩ <;> simp [handleAsk, h]

/-- C5 witness: a whitespace-only question at a concrete state. -/
theorem c5_witness :
    handleAsk ⟨"   ", "old", "", false, false, []⟩ (.success (some "x"))
        "i" 3 =
      ({ (⟨"   ", "old", "", false, false, []⟩ : UIState) with
          answer := "Please enter a question first." }, false) :=
  (c5_empty_question _ _ _ _ (by decide)).1

/-- C6: persisting a history of at most 15 well-formed entries and loading
it in a fresh session restores the identical list (same entries, same
oldest-first order), and the rendered history is its reverse,
most-recent-first. -/
theorem c6_roundtrip (h : List QAInteraction)
    (hl : h.length ≤ HISTORY_LIMIT) :
    loadHistory (persistHistory h) = h ∧ displayHistory h = h.reverse := by
  refine ⟨?_, rfl⟩
  unfold persistHistory
  rw [jsSliceLast_of_le h hl]
  show (h.map encodeEntry).filterMap decodeEntry = h
  exact filterMap_decode h

/-- C6 witness: round trip of a concrete one-entry history. -/
theorem c6_witness :
    loadHistory (persistHistory [⟨"1", "q", "a", 5⟩]) = [⟨"1", "q", "a", 5⟩] :=
  (c6_roundtrip _ (by decide)).1

/-- C7: for a non-2xx response the surfaced message is
`Request failed (status): body` — containing the body text, or
`Unknown error` when the body is empty — and that message is stored as the
answer and appended to the history; moreover for every fetch outcome the
loading flag is false when the handler completes. -/
theorem c7_http_error (s : UIState) (code : Nat) (body i : String) (n : Nat)
    (h : jsTrimS s.question ≠ "") :
    (handleAsk s (.httpError code body) i n).1.answer =
      httpErrorMessage code body ∧
    (handleAsk s (.httpError code body) i n).1.history =
      pushToHistory s.history
        ⟨i, jsTrimS s.question, httpErrorMessage code body, n⟩ ∧
    (body ≠ "" → containsSub (httpErrorMessage code body) body) ∧
    (body = "" → containsSub (httpErrorMessage code body) "Unknown error") ∧
    (∀ f : FetchResult, ((handleAsk s f i n).1).loading = false) := by
  refine ⟨by simp [handleAsk, h], by simp [handleAsk, h], ?_, ?_, ?_⟩
  · intro hb
    refine ⟨("Request failed (" ++ toString code ++ "): ").data, [], ?_⟩
    simp [httpErrorMessage, hb, strData_append]
  · intro hb
    refine ⟨("Request failed (" ++ toString code ++ "): ").data, [], ?_⟩
    simp [httpErrorMessage, hb, strData_append]
  · intro f
    cases f <;> simp [handleAsk, h]

/-- C7 witness: a concrete 500 response with body `boom`. -/
theorem c7_witness :
    (handleAsk ⟨"why", "", "", true, false, []⟩ (.httpError 500 "boom")
        "i" 7).1.answer = httpErrorMessage 500 "boom" ∧
    containsSub (httpErrorMessage 500 "boom") "boom" ∧
    ((handleAsk ⟨"why", "", "", true, false, []⟩ (.success none)
        "i" 7).1).loading = false := by
  have h := c7_http_error ⟨"why", "", "", true, false, []⟩ 500 "boom" "i" 7
    (by decide)
  exact ⟨h.1, h.2.2.1 (by decide), h.2.2.2.2 (.success none)⟩

/-- C9 counterexample: with a copyable answer (`hello`) and a failing
clipboard write, the handler sets the status to `Clipboard unavailable`
but schedules no status-clearing timer, so the claimed auto-clear after a
fixed delay does not happen on the failure outcome. -/
theorem c9_counterexample :
    jsTrimS "hello" ≠ "" ∧ jsTrimS "hello" ≠ DEFAULT_ANSWER ∧
    (handleCopyAnswer ⟨"", "hello", "", false, false, []⟩
        (.available false)).1.status = "Clipboard unavailable" ∧
    (handleCopyAnswer ⟨"", "hello", "", false, false, []⟩
        (.available false)).2 = [] := by decide

/-- C9 (amended): copy-to-clipboard is a no-op when the trimmed answer is
empty (covering empty and whitespace-only answers) or equals the
placeholder text; otherwise on success it sets status `Copied!` and
schedules the 1500 ms timer that clears the status, while on a failing
write or an unavailable clipboard it sets status `Clipboard unavailable`
without scheduling any status-clearing timer (only the success status
auto-clears). -/
theorem c9_copy_behavior :
    (∀ (s : UIState) (clip : ClipboardEnv),
      jsTrimS s.answer = "" ∨ jsTrimS s.answer = DEFAULT_ANSWER →
      handleCopyAnswer s clip = (s, [])) ∧
    (∀ s : UIState,
      ¬(jsTrimS s.answer = "" ∨ jsTrimS s.answer = DEFAULT_ANSWER) →
      handleCopyAnswer s (.available true) =
        ({ s with copied := true, status := "Copied!" }, [1500])) ∧
    (∀ s : UIState,
      ¬(jsTrimS s.answer = "" ∨ jsTrimS s.answer = DEFAULT_ANSWER) →
      handleCopyAnswer s (.available false) =
        ({ s with status := "Clipboard unavailable" }, []) ∧
      handleCopyAnswer s .unavailable =
        ({ s with status := "Clipboard unavailable" }, [])) := by
  refine ⟨?_, ?_, ?_⟩
  · intro s clip hc
    simp only [handleCopyAnswer]
    rw [if_pos hc]
  · intro s hc
    simp only [handleCopyAnswer]
    rw [if_neg hc]
  · intro s hc
    constructor <;> (simp only [handleCopyAnswer]; rw [if_neg hc])

/-- C9 witness: the success conjunct at a concrete state. -/
theorem c9_witness :
    handleCopyAnswer ⟨"", "hi", "", false, false, []⟩ (.available true) =
      ({ (⟨"", "hi", "", false, false, []⟩ : UIState) with
          copied := true, status := "Copied!" }, [1500]) :=
  c9_copy_behavior.2.1 _ (by decide)

/-- C10: a 2xx response whose JSON body has no usable `answer` field
(absent or null, both modelled by `none`) does not fail: the literal string
`No answer returned.` is stored as the answer and a history entry pairing
the trimmed question with that string is appended, with the network-call
flag true. -/
theorem c10_missing_answer (s : UIState) (i : String) (n : Nat)
    (h : jsTrimS s.question ≠ "") :
    (handleAsk s (.success none) i n).1.answer = "No answer returned." ∧
    (handleAsk s (.success none) i n).1.history =
      pushToHistory s.history
        ⟨i, jsTrimS s.question, "No answer returned.", n⟩ ∧
    (handleAsk s (.success none) i n).2 = true := by
  refine ⟨?_, ?_, ?_⟩ <;> simp [handleAsk, h]

/-- C10 witness: a concrete state with a nonempty question. -/
theorem c10_witness :
    (handleAsk ⟨"q", "", "", false, false, []⟩ (.success none)
        "i" 2).1.answer = "No answer returned." :=
  (c10_missing_answer _ _ _ (by decide)).1
